import Mathlib

/-!
# Sudoku board model (`main.go`)

A shallow embedding of the board logic of `main.go`: `NewSudoku`,
`Grid.ValidNumberPosition`, `Grid.WriteNumber`, `Grid.IsComplete` and the
clear action installed by `Grid.SetupUI`, followed by theorems about them.

Conventions of the embedding:

* `int8` cell values and Go `int` indices are modelled by `Int`. The code only
  compares and copies cell values, and only divides indices that have already
  been used to index the grid successfully, so no overflow can occur.
* Indexing a `[9][9]T` array with an index outside `0..8` panics in Go. A
  function that can panic returns an `Option`, `none` being the panic.
* Go `error` results are `Option SudokuError`, `none` being `nil`.
* The `cells` field of `Grid` (the toolkit widgets) is presentation state: the
  board logic never reads it, and `WriteNumber` only calls `SetText` on the
  widget it finds there. It is not modelled.
-/

namespace Sudoku

/-- The array type `[rows][columns]T` of `main.go`, with `rows = columns = 9`. -/
abbrev Cells (α : Type) := Fin 9 → Fin 9 → α

/-- The index expression `a[i][j]` for Go `int` indices; `none` is the
run-time panic raised for an index outside `0..8`. -/
def Cells.indexAt {α : Type} (a : Cells α) (i j : Int) : Option α :=
  if h : (0 ≤ i ∧ i < 9) ∧ (0 ≤ j ∧ j < 9) then
    some (a ⟨i.toNat, by omega⟩ ⟨j.toNat, by omega⟩)
  else none

/-- The array `a` after the assignment `a[r][c] = x`, for indices in range. -/
def Cells.set {α : Type} (a : Cells α) (r c : Fin 9) (x : α) : Cells α :=
  fun r' c' => if r' = r ∧ c' = c then x else a r' c'

/-- The assignment `a[i][j] = x` for Go `int` indices; `none` is the run-time
panic raised for an index outside `0..8`. -/
def Cells.storeAt {α : Type} (a : Cells α) (i j : Int) (x : α) : Option (Cells α) :=
  if h : (0 ≤ i ∧ i < 9) ∧ (0 ≤ j ∧ j < 9) then
    some (a.set ⟨i.toNat, by omega⟩ ⟨j.toNat, by omega⟩ x)
  else none

/-- The board fields of `type Grid struct`: `size` holds the cell values (`0`
is an empty cell), `fixed` the flags of the pre-filled cells. -/
structure Grid where
  size : Cells Int
  fixed : Cells Bool

/-- The errors built with `fmt.Errorf` in `main.go`, one constructor per
message, named after the error kinds of the specification. -/
inductive SudokuError where
  | range
  | fixedCell
  | rowConflict
  | columnConflict
  | boxConflict
  deriving DecidableEq

/-- The message each error is created with in `main.go`. -/
def SudokuError.message : SudokuError → String
  | .range => "число должно быть от 1 до 9"
  | .fixedCell => "ячейка фиксирована"
  | .rowConflict => "число уже есть в строке"
  | .columnConflict => "число уже есть в столбце"
  | .boxConflict => "число уже есть в квадрате 3x3"

/-- How a loop body (or a whole loop) ends: it falls through to what follows
(`next`), executes `return v` (`ret v`), or panics. -/
inductive Flow (ρ : Type) where
  | next
  | ret (v : ρ)
  | panic
  deriving DecidableEq

/-- The loop `for i := lo; i < lo + n; i++ { body }` whose body does not
assign to any variable: it runs `body` at `lo`, `lo + 1`, ... and stops at
the first iteration that returns or panics. -/
def forLoop {ρ : Type} (body : Int → Flow ρ) : Nat → Int → Flow ρ
  | 0, _ => .next
  | n + 1, i =>
    match body i with
    | .next => forLoop body n (i + 1)
    | .ret v => .ret v
    | .panic => .panic

/-- The loop `for i := lo; i < lo + n; i++ { body }` whose body updates the
state `s` and never returns early; `none` is a panic. -/
def forState {σ : Type} (body : Int → σ → Option σ) : Nat → Int → σ → Option σ
  | 0, _, s => some s
  | n + 1, i, s =>
    match body i s with
    | some s' => forState body n (i + 1) s'
    | none => none

/-- The zero value of `Grid` that `var grid Grid` declares. -/
def Grid.zero : Grid := { size := fun _ _ => 0, fixed := fun _ _ => false }

/-- The body of the inner loop of `NewSudoku` (lines 32-35). -/
def NewSudoku.body (digits : Cells Int) (r c : Int) (grid : Grid) : Option Grid :=
  match digits.indexAt r c with
  | none => none
  | some d =>
    match grid.size.storeAt r c d with
    | none => none
    | some size' =>
      let grid1 : Grid := { grid with size := size' }
      if d ≠ 0 then
        match grid1.fixed.storeAt r c true with
        | none => none
        | some fixed' => some { grid1 with fixed := fixed' }
      else some grid1

/-- Go `func NewSudoku(digits [rows][columns]int8) *Grid`. -/
def NewSudoku (digits : Cells Int) : Option Grid :=
  forState (fun r grid => forState (fun c grid => NewSudoku.body digits r c grid) 9 0 grid)
    9 0 Grid.zero

/-- The body of the first loop of `ValidNumberPosition` (lines 46-51). -/
def ValidNumberPosition.rowColumnBody (g : Grid) (number row column : Int) (i : Int) :
    Flow SudokuError :=
  match g.size.indexAt row i with
  | none => .panic
  | some x =>
    if x = number then .ret .rowConflict
    else
      match g.size.indexAt i column with
      | none => .panic
      | some y => if y = number then .ret .columnConflict else .next

/-- The body of the innermost loop over the 3x3 box (lines 57-59). -/
def ValidNumberPosition.boxBody (g : Grid) (number : Int) (i j : Int) : Flow SudokuError :=
  match g.size.indexAt i j with
  | none => .panic
  | some x => if x = number then .ret .boxConflict else .next

/-- Go `func (g *Grid) ValidNumberPosition(number int8, row, column int) error`.
The outer `none` is a panic; `some none` is the `nil` error. -/
def ValidNumberPosition (g : Grid) (number row column : Int) : Option (Option SudokuError) :=
  match g.fixed.indexAt row column with
  | none => none
  | some true => some (some .fixedCell)
  | some false =>
    match forLoop (ValidNumberPosition.rowColumnBody g number row column) 9 0 with
    | .panic => none
    | .ret e => some (some e)
    | .next =>
      let startRow := Int.tdiv row 3 * 3
      let startCol := Int.tdiv column 3 * 3
      match forLoop (fun i => forLoop (ValidNumberPosition.boxBody g number i) 3 startCol)
          3 startRow with
      | .panic => none
      | .ret e => some (some e)
      | .next => some none

/-- Go `func (g *Grid) WriteNumber(number int8, row, column int) error`, as the
board after the call together with the returned error; `none` is a panic. -/
def WriteNumber (g : Grid) (number row column : Int) : Option (Grid × Option SudokuError) :=
  if number < 1 ∨ number > 9 then some (g, some .range)
  else
    match ValidNumberPosition g number row column with
    | none => none
    | some (some err) => some (g, some err)
    | some none =>
      match g.size.storeAt row column number with
      | none => none
      | some size' => some ({ g with size := size' }, none)

/-- The body of the inner loop of `IsComplete` (lines 91-93). -/
def IsComplete.body (g : Grid) (r c : Int) : Flow Bool :=
  match g.size.indexAt r c with
  | none => .panic
  | some x => if x = 0 then .ret false else .next

/-- Go `func (g *Grid) IsComplete() bool`; `none` is a panic. -/
def IsComplete (g : Grid) : Option Bool :=
  match forLoop (fun r => forLoop (IsComplete.body g r) 9 0) 9 0 with
  | .panic => none
  | .ret b => some b
  | .next => some true

/-- The callback of the clear button that `SetupUI` creates for the cell
`(row, col)` (line 161): `g.size[row][col] = 0`. `row` and `col` are copies of
the loop counters of `SetupUI`, hence in `0..8`. -/
def clearAction (g : Grid) (row col : Fin 9) : Grid :=
  { g with size := g.size.set row col 0 }

/-- The starting puzzle `startDigits` of `main`. -/
def startDigits : Cells Int := fun r c =>
  (([[5, 3, 0, 0, 7, 0, 0, 0, 0],
     [6, 0, 0, 1, 9, 5, 0, 0, 0],
     [0, 9, 8, 0, 0, 0, 0, 6, 0],
     [8, 0, 0, 0, 6, 0, 0, 0, 3],
     [4, 0, 0, 8, 0, 3, 0, 0, 1],
     [7, 0, 0, 0, 2, 0, 0, 0, 6],
     [0, 6, 0, 0, 0, 0, 2, 8, 0],
     [0, 0, 0, 4, 1, 9, 0, 0, 5],
     [0, 0, 0, 0, 8, 0, 0, 7, 9]] : List (List Int)).getD r.val []).getD c.val 0


/-! ## Vocabulary of the properties -/

/-- The cell `(i, j)` lies in the 3x3 box whose top-left corner is
`((row/3)*3, (column/3)*3)`. -/
def InBoxOf (row column i j : Fin 9) : Prop :=
  (row.val / 3 * 3 ≤ i.val ∧ i.val < row.val / 3 * 3 + 3) ∧
    (column.val / 3 * 3 ≤ j.val ∧ j.val < column.val / 3 * 3 + 3)

instance (row column i j : Fin 9) : Decidable (InBoxOf row column i j) := by
  unfold InBoxOf
  infer_instance

/-- The value `v` occurs somewhere in `values[row][*]`. -/
def Grid.OccursInRow (g : Grid) (v : Int) (row : Fin 9) : Prop :=
  ∃ i : Fin 9, g.size row i = v

/-- The value `v` occurs somewhere in `values[*][column]`. -/
def Grid.OccursInColumn (g : Grid) (v : Int) (column : Fin 9) : Prop :=
  ∃ i : Fin 9, g.size i column = v

/-- The value `v` occurs somewhere in the 3x3 box of the cell `(row, column)`. -/
def Grid.OccursInBox (g : Grid) (v : Int) (row column : Fin 9) : Prop :=
  ∃ i j : Fin 9, InBoxOf row column i j ∧ g.size i j = v

/-- The board that `NewSudoku(startDigits)` returns in `main`: the cell values
are the starting digits and exactly the non-zero ones are fixed. -/
def startGrid : Grid :=
  { size := startDigits, fixed := fun r c => decide (startDigits r c ≠ 0) }

/-- The loop invariant of `NewSudoku`: the first `m` cells in row-major order
have been copied and flagged, the others still hold the zero value. -/
def NewSudoku.Filled (digits : Cells Int) (m : Nat) (grid : Grid) : Prop :=
  ∀ r c : Fin 9,
    grid.size r c = (if 9 * r.val + c.val < m then digits r c else 0) ∧
    grid.fixed r c = (if 9 * r.val + c.val < m then decide (digits r c ≠ 0) else false)

/-- No non-zero value appears twice in a row. -/
def NoDupRows (a : Cells Int) : Prop :=
  ∀ r c c' : Fin 9, a r c ≠ 0 → a r c = a r c' → c = c'

/-- No non-zero value appears twice in a column. -/
def NoDupColumns (a : Cells Int) : Prop :=
  ∀ r r' c : Fin 9, a r c ≠ 0 → a r c = a r' c → r = r'

/-- No non-zero value appears twice in a 3x3 box. -/
def NoDupBoxes (a : Cells Int) : Prop :=
  ∀ r c r' c' : Fin 9, InBoxOf r c r' c' → a r c ≠ 0 → a r c = a r' c' → r = r' ∧ c = c'

/-- No non-zero value appears twice in any row, any column or any 3x3 box. -/
def NoDuplicates (a : Cells Int) : Prop :=
  NoDupRows a ∧ NoDupColumns a ∧ NoDupBoxes a

instance (a : Cells Int) : Decidable (NoDuplicates a) := by
  unfold NoDuplicates NoDupRows NoDupColumns NoDupBoxes
  infer_instance

/-- Every entry is in `0..9`. -/
def DigitsInRange (a : Cells Int) : Prop :=
  ∀ r c : Fin 9, 0 ≤ a r c ∧ a r c ≤ 9

instance (a : Cells Int) : Decidable (DigitsInRange a) := by
  unfold DigitsInRange
  infer_instance

/-- A valid Sudoku solution: every row, every column and every 3x3 box contains
each of the digits `1..9` exactly once. -/
def IsSolution (a : Cells Int) : Prop :=
  ∀ d : Int, 1 ≤ d ∧ d ≤ 9 →
    (∀ r : Fin 9, ∃! c : Fin 9, a r c = d) ∧
    (∀ c : Fin 9, ∃! r : Fin 9, a r c = d) ∧
    (∀ r c : Fin 9, ∃! p : Fin 9 × Fin 9, InBoxOf r c p.1 p.2 ∧ a p.1 p.2 = d)

/-- The boards the program can be in after `NewSudoku(digits)`: the board that
`NewSudoku` returns, the board after any call of `WriteNumber` that does not
panic (whatever error it returns), and the board after the clear action of a
cell that is not fixed. `SetupUI` gives a fixed cell a label, which has no
callback, and only a cell that is not fixed a button with the clear action
(lines 114-174). No operation assigns to `fixed` after `NewSudoku`, so the flag
read here is the flag `SetupUI` read. -/
inductive Reachable (digits : Cells Int) : Grid → Prop where
  | init (g : Grid) : NewSudoku digits = some g → Reachable digits g
  | write (g g' : Grid) (number row column : Int) (err : Option SudokuError) :
      Reachable digits g → WriteNumber g number row column = some (g', err) →
      Reachable digits g'
  | clear (g : Grid) (row col : Fin 9) :
      Reachable digits g → g.fixed row col = false → Reachable digits (clearAction g row col)

/-- The solution of the starting puzzle with the cell `(0, 2)` left empty. -/
def almostSolved : Cells Int := fun r c =>
  (([[5, 3, 0, 6, 7, 8, 9, 1, 2],
     [6, 7, 2, 1, 9, 5, 3, 4, 8],
     [1, 9, 8, 3, 4, 2, 5, 6, 7],
     [8, 5, 9, 7, 6, 1, 4, 2, 3],
     [4, 2, 6, 8, 5, 3, 7, 9, 1],
     [7, 1, 3, 9, 2, 4, 8, 5, 6],
     [9, 6, 1, 5, 3, 7, 2, 8, 4],
     [2, 8, 7, 4, 1, 9, 6, 3, 5],
     [3, 4, 5, 2, 8, 6, 1, 7, 9]] : List (List Int)).getD r.val []).getD c.val 0

/-- The board after `WriteNumber(4, 0, 2)` on the starting board. -/
def startGridPlaced : Grid :=
  { startGrid with size := startGrid.size.set 0 2 4 }

/-- The board that `NewSudoku(almostSolved)` returns. -/
def almostSolvedGrid : Grid :=
  { size := almostSolved, fixed := fun r c => decide (almostSolved r c ≠ 0) }

/-- The board after `WriteNumber(4, 0, 2)` on `almostSolvedGrid`. -/
def solvedGrid : Grid :=
  { almostSolvedGrid with size := almostSolvedGrid.size.set 0 2 4 }

/-! ## Loops -/

theorem forLoop_next_iff {ρ : Type} (body : Int → Flow ρ) (n : Nat) (lo : Int) :
    forLoop body n lo = .next ↔ ∀ k : Nat, k < n → body (lo + k) = .next := by
  induction n generalizing lo with
  | zero => simp [forLoop]
  | succ n ih =>
    constructor
    · intro h k hk
      rw [forLoop] at h
      cases hb : body lo with
      | next =>
        rw [hb] at h
        cases k with
        | zero => simpa using hb
        | succ k =>
          have := (ih (lo + 1)).1 h k (by omega)
          rw [show lo + ((k + 1 : Nat) : Int) = lo + 1 + (k : Int) by push_cast; ring]
          exact this
      | ret v => rw [hb] at h; cases h
      | panic => rw [hb] at h; cases h
    · intro h
      have h0 : body lo = .next := by simpa using h 0 (by omega)
      rw [forLoop, h0]
      refine (ih (lo + 1)).2 fun k hk => ?_
      have := h (k + 1) (by omega)
      rw [show lo + ((k + 1 : Nat) : Int) = lo + 1 + (k : Int) by push_cast; ring] at this
      exact this

theorem forLoop_stop_iff {ρ : Type} (body : Int → Flow ρ) (n : Nat) (lo : Int) (out : Flow ρ)
    (hout : out ≠ .next) :
    forLoop body n lo = out ↔
      ∃ k : Nat, k < n ∧ body (lo + k) = out ∧ ∀ j : Nat, j < k → body (lo + j) = .next := by
  induction n generalizing lo with
  | zero =>
    simp only [forLoop, Nat.not_lt_zero, false_and, exists_false, iff_false]
    exact fun h => hout h.symm
  | succ n ih =>
    rw [forLoop]
    cases hb : body lo with
    | next =>
      simp only
      rw [ih (lo + 1)]
      constructor
      · rintro ⟨k, hk, hbk, hlt⟩
        refine ⟨k + 1, by omega, ?_, ?_⟩
        · rw [show lo + ((k + 1 : Nat) : Int) = lo + 1 + (k : Int) by push_cast; ring]
          exact hbk
        · intro j hj
          cases j with
          | zero => simpa using hb
          | succ j =>
            rw [show lo + ((j + 1 : Nat) : Int) = lo + 1 + (j : Int) by push_cast; ring]
            exact hlt j (by omega)
      · rintro ⟨k, hk, hbk, hlt⟩
        cases k with
        | zero =>
          simp only [Nat.cast_zero, add_zero] at hbk
          rw [hb] at hbk
          exact absurd hbk.symm hout
        | succ k =>
          refine ⟨k, by omega, ?_, ?_⟩
          · rw [show lo + ((k + 1 : Nat) : Int) = lo + 1 + (k : Int) by push_cast; ring] at hbk
            exact hbk
          · intro j hj
            have := hlt (j + 1) (by omega)
            rw [show lo + ((j + 1 : Nat) : Int) = lo + 1 + (j : Int) by push_cast; ring] at this
            exact this
    | ret v =>
      simp only
      constructor
      · intro h
        exact ⟨0, by omega, by simpa [hb] using h, fun j hj => absurd hj (Nat.not_lt_zero j)⟩
      · rintro ⟨k, _, hbk, hlt⟩
        cases k with
        | zero => simpa [hb] using hbk
        | succ k =>
          have := hlt 0 (by omega)
          simp only [Nat.cast_zero, add_zero] at this
          rw [hb] at this
          cases this
    | panic =>
      simp only
      constructor
      · intro h
        exact ⟨0, by omega, by simpa [hb] using h, fun j hj => absurd hj (Nat.not_lt_zero j)⟩
      · rintro ⟨k, _, hbk, hlt⟩
        cases k with
        | zero => simpa [hb] using hbk
        | succ k =>
          have := hlt 0 (by omega)
          simp only [Nat.cast_zero, add_zero] at this
          rw [hb] at this
          cases this

/-! ## Indexing -/

theorem indexAt_cast {α : Type} (a : Cells α) (r c : Fin 9) :
    a.indexAt (r.val : Int) (c.val : Int) = some (a r c) := by
  have hr := r.isLt
  have hc := c.isLt
  unfold Cells.indexAt
  rw [dif_pos (by omega)]
  simp

theorem indexAt_eq_some {α : Type} (a : Cells α) (i j : Int) (x : α)
    (h : a.indexAt i j = some x) : ∃ r c : Fin 9, i = (r.val : Int) ∧ j = (c.val : Int) ∧ a r c = x := by
  unfold Cells.indexAt at h
  split at h
  · rename_i hr
    refine ⟨⟨i.toNat, by omega⟩, ⟨j.toNat, by omega⟩, ?_, ?_, ?_⟩
    · simp only; omega
    · simp only; omega
    · simpa using h
  · cases h

theorem storeAt_cast {α : Type} (a : Cells α) (r c : Fin 9) (x : α) :
    a.storeAt (r.val : Int) (c.val : Int) x = some (a.set r c x) := by
  have hr := r.isLt
  have hc := c.isLt
  unfold Cells.storeAt
  rw [dif_pos (by omega)]
  simp

/-! ## `ValidNumberPosition` on a cell in range -/

theorem rowColumnBody_fin (g : Grid) (v : Int) (r c i : Fin 9) :
    ValidNumberPosition.rowColumnBody g v r.val c.val ((0 : Int) + (i.val : Nat)) =
      if g.size r i = v then .ret .rowConflict
      else if g.size i c = v then .ret .columnConflict else .next := by
  unfold ValidNumberPosition.rowColumnBody
  rw [zero_add, indexAt_cast, indexAt_cast]

theorem rowColumnLoop_next_iff (g : Grid) (v : Int) (r c : Fin 9) :
    forLoop (ValidNumberPosition.rowColumnBody g v r.val c.val) 9 0 = .next ↔
      ∀ i : Fin 9, g.size r i ≠ v ∧ g.size i c ≠ v := by
  rw [forLoop_next_iff]
  constructor
  · intro h i
    have := h i.val i.isLt
    rw [rowColumnBody_fin] at this
    split_ifs at this with h1 h2
    exact ⟨h1, h2⟩
  · intro h k hk
    have := rowColumnBody_fin g v r c ⟨k, hk⟩
    simp only at this
    rw [this, if_neg (h ⟨k, hk⟩).1, if_neg (h ⟨k, hk⟩).2]

theorem rowColumnLoop_row_iff (g : Grid) (v : Int) (r c : Fin 9) :
    forLoop (ValidNumberPosition.rowColumnBody g v r.val c.val) 9 0 = .ret .rowConflict ↔
      ∃ i : Fin 9, g.size r i = v ∧
        ∀ j : Fin 9, j < i → g.size r j ≠ v ∧ g.size j c ≠ v := by
  rw [forLoop_stop_iff _ _ _ _ (by simp)]
  constructor
  · rintro ⟨k, hk, hbk, hlt⟩
    refine ⟨⟨k, hk⟩, ?_, ?_⟩
    · have := rowColumnBody_fin g v r c ⟨k, hk⟩
      simp only at this
      rw [this] at hbk
      split_ifs at hbk with h1 h2
      · exact h1
      · cases hbk
    · intro j hj
      have hjk : j.val < k := hj
      have := hlt j.val hjk
      rw [rowColumnBody_fin] at this
      split_ifs at this with h1 h2
      exact ⟨h1, h2⟩
  · rintro ⟨i, hi, hlt⟩
    refine ⟨i.val, i.isLt, ?_, ?_⟩
    · rw [rowColumnBody_fin, if_pos hi]
    · intro j hj
      have hj9 : j < 9 := by have := i.isLt; omega
      have := rowColumnBody_fin g v r c ⟨j, hj9⟩
      simp only at this
      have h2 := hlt ⟨j, hj9⟩ hj
      rw [this, if_neg h2.1, if_neg h2.2]

theorem rowColumnLoop_column_iff (g : Grid) (v : Int) (r c : Fin 9) :
    forLoop (ValidNumberPosition.rowColumnBody g v r.val c.val) 9 0 = .ret .columnConflict ↔
      ∃ i : Fin 9, g.size i c = v ∧ g.size r i ≠ v ∧
        ∀ j : Fin 9, j < i → g.size r j ≠ v ∧ g.size j c ≠ v := by
  rw [forLoop_stop_iff _ _ _ _ (by simp)]
  constructor
  · rintro ⟨k, hk, hbk, hlt⟩
    refine ⟨⟨k, hk⟩, ?_, ?_, ?_⟩
    · have := rowColumnBody_fin g v r c ⟨k, hk⟩
      simp only at this
      rw [this] at hbk
      split_ifs at hbk with h1 h2
      · cases hbk
      · exact h2
    · have := rowColumnBody_fin g v r c ⟨k, hk⟩
      simp only at this
      rw [this] at hbk
      split_ifs at hbk with h1 h2
      · cases hbk
      · exact h1
    · intro j hj
      have hjk : j.val < k := hj
      have := hlt j.val hjk
      rw [rowColumnBody_fin] at this
      split_ifs at this with h1 h2
      exact ⟨h1, h2⟩
  · rintro ⟨i, hi, hri, hlt⟩
    refine ⟨i.val, i.isLt, ?_, ?_⟩
    · rw [rowColumnBody_fin, if_neg hri, if_pos hi]
    · intro j hj
      have hj9 : j < 9 := by have := i.isLt; omega
      have := rowColumnBody_fin g v r c ⟨j, hj9⟩
      simp only at this
      have h2 := hlt ⟨j, hj9⟩ hj
      rw [this, if_neg h2.1, if_neg h2.2]

/-- The first loop never panics on a cell in range and returns no other error
than a row or a column conflict. -/
theorem rowColumnLoop_cases (g : Grid) (v : Int) (r c : Fin 9) :
    forLoop (ValidNumberPosition.rowColumnBody g v r.val c.val) 9 0 = .next ∨
    forLoop (ValidNumberPosition.rowColumnBody g v r.val c.val) 9 0 = .ret .rowConflict ∨
    forLoop (ValidNumberPosition.rowColumnBody g v r.val c.val) 9 0 = .ret .columnConflict := by
  cases hl : forLoop (ValidNumberPosition.rowColumnBody g v r.val c.val) 9 0 with
  | next => simp
  | ret e =>
    obtain ⟨k, hk, hbk, -⟩ := (forLoop_stop_iff _ _ _ _ (by simp)).1 hl
    have := rowColumnBody_fin g v r c ⟨k, hk⟩
    simp only at this
    rw [this] at hbk
    split_ifs at hbk <;> simp_all
  | panic =>
    obtain ⟨k, hk, hbk, -⟩ := (forLoop_stop_iff _ _ _ _ (by simp)).1 hl
    have := rowColumnBody_fin g v r c ⟨k, hk⟩
    simp only at this
    rw [this] at hbk
    split_ifs at hbk

theorem boxBody_fin (g : Grid) (v : Int) (r c : Fin 9) (k l : Nat) (hk : k < 3) (hl : l < 3) :
    ValidNumberPosition.boxBody g v (Int.tdiv r.val 3 * 3 + k) (Int.tdiv c.val 3 * 3 + l) =
      if g.size ⟨r.val / 3 * 3 + k, by omega⟩ ⟨c.val / 3 * 3 + l, by omega⟩ = v
      then .ret .boxConflict else .next := by
  have er : Int.tdiv r.val 3 * 3 + k =
      (((⟨r.val / 3 * 3 + k, by omega⟩ : Fin 9).val : Nat) : Int) := by
    have h0 : (0 : Int) ≤ (r.val : Int) := Int.natCast_nonneg _
    rw [Int.tdiv_eq_ediv h0 (by decide)]
    simp only
    omega
  have ec : Int.tdiv c.val 3 * 3 + l =
      (((⟨c.val / 3 * 3 + l, by omega⟩ : Fin 9).val : Nat) : Int) := by
    have h0 : (0 : Int) ≤ (c.val : Int) := Int.natCast_nonneg _
    rw [Int.tdiv_eq_ediv h0 (by decide)]
    simp only
    omega
  unfold ValidNumberPosition.boxBody
  rw [er, ec, indexAt_cast]

theorem boxInner_cases (g : Grid) (v : Int) (r c : Fin 9) (k : Nat) (hk : k < 3) :
    forLoop (ValidNumberPosition.boxBody g v (Int.tdiv r.val 3 * 3 + k)) 3
        (Int.tdiv c.val 3 * 3) = .next ∨
    forLoop (ValidNumberPosition.boxBody g v (Int.tdiv r.val 3 * 3 + k)) 3
        (Int.tdiv c.val 3 * 3) = .ret .boxConflict := by
  cases hl : forLoop (ValidNumberPosition.boxBody g v (Int.tdiv r.val 3 * 3 + k)) 3
      (Int.tdiv c.val 3 * 3) with
  | next => simp
  | ret e =>
    obtain ⟨l, hl3, hbl, -⟩ := (forLoop_stop_iff _ _ _ _ (by simp)).1 hl
    rw [boxBody_fin g v r c k l hk hl3] at hbl
    split_ifs at hbl
    simp_all
  | panic =>
    obtain ⟨l, hl3, hbl, -⟩ := (forLoop_stop_iff _ _ _ _ (by simp)).1 hl
    rw [boxBody_fin g v r c k l hk hl3] at hbl
    split_ifs at hbl

theorem boxInner_next_iff (g : Grid) (v : Int) (r c : Fin 9) (k : Nat) (hk : k < 3) :
    forLoop (ValidNumberPosition.boxBody g v (Int.tdiv r.val 3 * 3 + k)) 3
        (Int.tdiv c.val 3 * 3) = .next ↔
      ∀ (l : Nat) (hl : l < 3),
        g.size ⟨r.val / 3 * 3 + k, by omega⟩ ⟨c.val / 3 * 3 + l, by omega⟩ ≠ v := by
  rw [forLoop_next_iff]
  constructor
  · intro h l hl
    have := h l hl
    rw [boxBody_fin g v r c k l hk hl] at this
    split_ifs at this with h1
    exact h1
  · intro h l hl
    rw [boxBody_fin g v r c k l hk hl, if_neg (h l hl)]

theorem boxLoop_cases (g : Grid) (v : Int) (r c : Fin 9) :
    forLoop (fun i => forLoop (ValidNumberPosition.boxBody g v i) 3 (Int.tdiv c.val 3 * 3)) 3
        (Int.tdiv r.val 3 * 3) = .next ∨
    forLoop (fun i => forLoop (ValidNumberPosition.boxBody g v i) 3 (Int.tdiv c.val 3 * 3)) 3
        (Int.tdiv r.val 3 * 3) = .ret .boxConflict := by
  cases hl : forLoop (fun i => forLoop (ValidNumberPosition.boxBody g v i) 3
      (Int.tdiv c.val 3 * 3)) 3 (Int.tdiv r.val 3 * 3) with
  | next => simp
  | ret e =>
    obtain ⟨k, hk, hbk, -⟩ := (forLoop_stop_iff _ _ _ _ (by simp)).1 hl
    rcases boxInner_cases g v r c k hk with h | h
    · simp only [h] at hbk
      cases hbk
    · simp only [h] at hbk
      simp_all
  | panic =>
    obtain ⟨k, hk, hbk, -⟩ := (forLoop_stop_iff _ _ _ _ (by simp)).1 hl
    rcases boxInner_cases g v r c k hk with h | h
    · simp only [h] at hbk
      cases hbk
    · simp only [h] at hbk
      cases hbk

theorem boxLoop_next_iff (g : Grid) (v : Int) (r c : Fin 9) :
    forLoop (fun i => forLoop (ValidNumberPosition.boxBody g v i) 3 (Int.tdiv c.val 3 * 3)) 3
        (Int.tdiv r.val 3 * 3) = .next ↔ ¬ g.OccursInBox v r c := by
  rw [forLoop_next_iff]
  constructor
  · rintro h ⟨i, j, ⟨⟨hi1, hi2⟩, ⟨hj1, hj2⟩⟩, hv⟩
    have hk : i.val - r.val / 3 * 3 < 3 := by omega
    have hl : j.val - c.val / 3 * 3 < 3 := by omega
    have h1 := (boxInner_next_iff g v r c _ hk).1 (h _ hk) _ hl
    apply h1
    rw [← hv]
    congr 1 <;> apply Fin.ext <;> simp only <;> omega
  · intro h k hk
    refine (boxInner_next_iff g v r c k hk).2 fun l hl hv => h ?_
    have hr := r.isLt
    have hc := c.isLt
    exact ⟨⟨r.val / 3 * 3 + k, by omega⟩, ⟨c.val / 3 * 3 + l, by omega⟩,
      ⟨⟨by simp, by simp only; omega⟩, ⟨by simp, by simp only; omega⟩⟩, hv⟩

theorem ValidNumberPosition_of_fixed (g : Grid) (v : Int) (r c : Fin 9)
    (h : g.fixed r c = true) :
    ValidNumberPosition g v r.val c.val = some (some .fixedCell) := by
  unfold ValidNumberPosition
  rw [indexAt_cast, h]

theorem ValidNumberPosition_of_not_fixed (g : Grid) (v : Int) (r c : Fin 9)
    (h : g.fixed r c = false) :
    ValidNumberPosition g v r.val c.val =
      match forLoop (ValidNumberPosition.rowColumnBody g v r.val c.val) 9 0 with
      | .panic => none
      | .ret e => some (some e)
      | .next =>
        match forLoop (fun i => forLoop (ValidNumberPosition.boxBody g v i) 3
            (Int.tdiv c.val 3 * 3)) 3 (Int.tdiv r.val 3 * 3) with
        | .panic => none
        | .ret e => some (some e)
        | .next => some none := by
  unfold ValidNumberPosition
  rw [indexAt_cast, h]

/-- On a cell in range `ValidNumberPosition` does not panic. -/
theorem ValidNumberPosition_total (g : Grid) (v : Int) (r c : Fin 9) :
    ∃ e, ValidNumberPosition g v r.val c.val = some e := by
  cases h : g.fixed r c with
  | true => exact ⟨_, ValidNumberPosition_of_fixed g v r c h⟩
  | false =>
    rw [ValidNumberPosition_of_not_fixed g v r c h]
    rcases rowColumnLoop_cases g v r c with h1 | h1 | h1 <;>
      rcases boxLoop_cases g v r c with h2 | h2 <;> simp [h1, h2]

theorem ValidNumberPosition_nil_iff (g : Grid) (v : Int) (r c : Fin 9)
    (h : g.fixed r c = false) :
    ValidNumberPosition g v r.val c.val = some none ↔
      ¬ g.OccursInRow v r ∧ ¬ g.OccursInColumn v c ∧ ¬ g.OccursInBox v r c := by
  have hrc : (¬ g.OccursInRow v r ∧ ¬ g.OccursInColumn v c) ↔
      forLoop (ValidNumberPosition.rowColumnBody g v r.val c.val) 9 0 = .next := by
    rw [rowColumnLoop_next_iff]
    unfold Grid.OccursInRow Grid.OccursInColumn
    constructor
    · rintro ⟨h1, h2⟩ i
      exact ⟨fun hi => h1 ⟨i, hi⟩, fun hi => h2 ⟨i, hi⟩⟩
    · intro h1
      exact ⟨fun ⟨i, hi⟩ => (h1 i).1 hi, fun ⟨i, hi⟩ => (h1 i).2 hi⟩
  rw [← and_assoc, hrc, ← boxLoop_next_iff, ValidNumberPosition_of_not_fixed g v r c h]
  rcases rowColumnLoop_cases g v r c with h1 | h1 | h1 <;>
    rcases boxLoop_cases g v r c with h2 | h2 <;> simp [h1, h2]

theorem ValidNumberPosition_row_iff (g : Grid) (v : Int) (r c : Fin 9)
    (h : g.fixed r c = false) :
    ValidNumberPosition g v r.val c.val = some (some .rowConflict) ↔
      ∃ i : Fin 9, g.size r i = v ∧
        ∀ j : Fin 9, j < i → g.size r j ≠ v ∧ g.size j c ≠ v := by
  rw [← rowColumnLoop_row_iff, ValidNumberPosition_of_not_fixed g v r c h]
  rcases rowColumnLoop_cases g v r c with h1 | h1 | h1 <;>
    rcases boxLoop_cases g v r c with h2 | h2 <;> simp [h1, h2]

theorem ValidNumberPosition_column_iff (g : Grid) (v : Int) (r c : Fin 9)
    (h : g.fixed r c = false) :
    ValidNumberPosition g v r.val c.val = some (some .columnConflict) ↔
      ∃ i : Fin 9, g.size i c = v ∧ g.size r i ≠ v ∧
        ∀ j : Fin 9, j < i → g.size r j ≠ v ∧ g.size j c ≠ v := by
  rw [← rowColumnLoop_column_iff, ValidNumberPosition_of_not_fixed g v r c h]
  rcases rowColumnLoop_cases g v r c with h1 | h1 | h1 <;>
    rcases boxLoop_cases g v r c with h2 | h2 <;> simp [h1, h2]

theorem ValidNumberPosition_box_iff (g : Grid) (v : Int) (r c : Fin 9)
    (h : g.fixed r c = false) :
    ValidNumberPosition g v r.val c.val = some (some .boxConflict) ↔
      ¬ g.OccursInRow v r ∧ ¬ g.OccursInColumn v c ∧ g.OccursInBox v r c := by
  have hrc : (¬ g.OccursInRow v r ∧ ¬ g.OccursInColumn v c) ↔
      forLoop (ValidNumberPosition.rowColumnBody g v r.val c.val) 9 0 = .next := by
    rw [rowColumnLoop_next_iff]
    unfold Grid.OccursInRow Grid.OccursInColumn
    constructor
    · rintro ⟨h1, h2⟩ i
      exact ⟨fun hi => h1 ⟨i, hi⟩, fun hi => h2 ⟨i, hi⟩⟩
    · intro h1
      exact ⟨fun ⟨i, hi⟩ => (h1 i).1 hi, fun ⟨i, hi⟩ => (h1 i).2 hi⟩
  have hb : g.OccursInBox v r c ↔
      ¬ forLoop (fun i => forLoop (ValidNumberPosition.boxBody g v i) 3
        (Int.tdiv c.val 3 * 3)) 3 (Int.tdiv r.val 3 * 3) = .next := by
    rw [boxLoop_next_iff, not_not]
  rw [← and_assoc, hrc, hb, ValidNumberPosition_of_not_fixed g v r c h]
  rcases rowColumnLoop_cases g v r c with h1 | h1 | h1 <;>
    rcases boxLoop_cases g v r c with h2 | h2 <;> simp [h1, h2]

/-- A call of `ValidNumberPosition` that does not panic was made on a cell in
range. -/
theorem ValidNumberPosition_in_range (g : Grid) (v row column : Int) (e : Option SudokuError)
    (h : ValidNumberPosition g v row column = some e) :
    ∃ r c : Fin 9, row = (r.val : Int) ∧ column = (c.val : Int) := by
  unfold ValidNumberPosition at h
  cases hf : g.fixed.indexAt row column with
  | none => rw [hf] at h; cases h
  | some b =>
    obtain ⟨r, c, hr, hc, -⟩ := indexAt_eq_some _ _ _ _ hf
    exact ⟨r, c, hr, hc⟩

/-! ## `WriteNumber` -/

theorem WriteNumber_of_range (g : Grid) (v row column : Int) (hv : v < 1 ∨ v > 9) :
    WriteNumber g v row column = some (g, some .range) := by
  unfold WriteNumber
  rw [if_pos hv]

theorem WriteNumber_of_error (g : Grid) (v row column : Int) (hv : 1 ≤ v ∧ v ≤ 9)
    (e : SudokuError) (h : ValidNumberPosition g v row column = some (some e)) :
    WriteNumber g v row column = some (g, some e) := by
  unfold WriteNumber
  rw [if_neg (by omega), h]

theorem WriteNumber_of_nil (g : Grid) (v : Int) (r c : Fin 9) (hv : 1 ≤ v ∧ v ≤ 9)
    (h : ValidNumberPosition g v r.val c.val = some none) :
    WriteNumber g v r.val c.val = some ({ g with size := g.size.set r c v }, none) := by
  unfold WriteNumber
  rw [if_neg (by omega), h]
  simp only
  rw [storeAt_cast]

/-- Every call of `WriteNumber` that returns an error leaves the board as it
was. -/
theorem WriteNumber_error_eq (g g' : Grid) (v row column : Int) (e : SudokuError)
    (h : WriteNumber g v row column = some (g', some e)) : g' = g := by
  unfold WriteNumber at h
  split_ifs at h with hv
  · simp only [Option.some.injEq, Prod.mk.injEq] at h
    exact h.1.symm
  · split at h
    · cases h
    · simp only [Option.some.injEq, Prod.mk.injEq] at h
      exact h.1.symm
    · split at h
      · cases h
      · simp at h

/-- What a successful call of `WriteNumber` has checked and done. -/
theorem WriteNumber_success_inv (g g' : Grid) (v row column : Int)
    (h : WriteNumber g v row column = some (g', none)) :
    ∃ r c : Fin 9, row = (r.val : Int) ∧ column = (c.val : Int) ∧ (1 ≤ v ∧ v ≤ 9) ∧
      ValidNumberPosition g v r.val c.val = some none ∧
      g' = { g with size := g.size.set r c v } := by
  by_cases hv : v < 1 ∨ v > 9
  · rw [WriteNumber_of_range g v row column hv] at h
    simp at h
  · have hv' : 1 ≤ v ∧ v ≤ 9 := by omega
    cases hvn : ValidNumberPosition g v row column with
    | none =>
      unfold WriteNumber at h
      rw [if_neg hv, hvn] at h
      cases h
    | some e =>
      obtain ⟨r, c, hr, hc⟩ := ValidNumberPosition_in_range g v row column e hvn
      subst hr hc
      cases e with
      | some err =>
        rw [WriteNumber_of_error g v _ _ hv' err hvn] at h
        simp at h
      | none =>
        rw [WriteNumber_of_nil g v r c hv' hvn] at h
        simp only [Option.some.injEq, Prod.mk.injEq, and_true] at h
        exact ⟨r, c, rfl, rfl, hv', hvn, h.symm⟩

theorem exists_least (P : Fin 9 → Prop) :
    ∀ (n : Nat) (i : Fin 9), i.val = n → P i →
      ∃ i0 : Fin 9, i0 ≤ i ∧ P i0 ∧ ∀ j : Fin 9, j < i0 → ¬ P j := by
  intro n
  induction n using Nat.strong_induction_on with
  | _ n ih =>
    intro i hi hP
    by_cases h : ∀ j : Fin 9, j < i → ¬ P j
    · exact ⟨i, le_refl _, hP, h⟩
    · push_neg at h
      obtain ⟨j, hj, hPj⟩ := h
      obtain ⟨i0, h1, h2, h3⟩ := ih j.val (by rw [← hi]; exact hj) j rfl hPj
      exact ⟨i0, le_trans h1 (le_of_lt hj), h2, h3⟩

/-! ## `IsComplete` -/

theorem IsComplete_body_fin (g : Grid) (r c : Fin 9) :
    IsComplete.body g ((0 : Int) + (r.val : Nat)) ((0 : Int) + (c.val : Nat)) =
      if g.size r c = 0 then .ret false else .next := by
  unfold IsComplete.body
  rw [zero_add, zero_add, indexAt_cast]

theorem IsComplete_inner_cases (g : Grid) (r : Fin 9) :
    forLoop (IsComplete.body g ((0 : Int) + (r.val : Nat))) 9 0 = .next ∨
    forLoop (IsComplete.body g ((0 : Int) + (r.val : Nat))) 9 0 = .ret false := by
  cases hl : forLoop (IsComplete.body g ((0 : Int) + (r.val : Nat))) 9 0 with
  | next => simp
  | ret b =>
    obtain ⟨l, hl9, hbl, -⟩ := (forLoop_stop_iff _ _ _ _ (by simp)).1 hl
    have := IsComplete_body_fin g r ⟨l, hl9⟩
    simp only at this
    rw [this] at hbl
    split_ifs at hbl
    simp_all
  | panic =>
    obtain ⟨l, hl9, hbl, -⟩ := (forLoop_stop_iff _ _ _ _ (by simp)).1 hl
    have := IsComplete_body_fin g r ⟨l, hl9⟩
    simp only at this
    rw [this] at hbl
    split_ifs at hbl

theorem IsComplete_inner_next_iff (g : Grid) (r : Fin 9) :
    forLoop (IsComplete.body g ((0 : Int) + (r.val : Nat))) 9 0 = .next ↔
      ∀ c : Fin 9, g.size r c ≠ 0 := by
  rw [forLoop_next_iff]
  constructor
  · intro h c
    have := h c.val c.isLt
    rw [IsComplete_body_fin] at this
    split_ifs at this with h1
    exact h1
  · intro h l hl
    have := IsComplete_body_fin g r ⟨l, hl⟩
    simp only at this
    rw [this, if_neg (h ⟨l, hl⟩)]

theorem IsComplete_outer_cases (g : Grid) :
    forLoop (fun r => forLoop (IsComplete.body g r) 9 0) 9 0 = .next ∨
    forLoop (fun r => forLoop (IsComplete.body g r) 9 0) 9 0 = .ret false := by
  cases hl : forLoop (fun r => forLoop (IsComplete.body g r) 9 0) 9 0 with
  | next => simp
  | ret b =>
    obtain ⟨k, hk, hbk, -⟩ := (forLoop_stop_iff _ _ _ _ (by simp)).1 hl
    rcases IsComplete_inner_cases g ⟨k, hk⟩ with h | h
    · simp only [h] at hbk
      cases hbk
    · simp only [h] at hbk
      simp_all
  | panic =>
    obtain ⟨k, hk, hbk, -⟩ := (forLoop_stop_iff _ _ _ _ (by simp)).1 hl
    rcases IsComplete_inner_cases g ⟨k, hk⟩ with h | h
    · simp only [h] at hbk
      cases hbk
    · simp only [h] at hbk
      cases hbk

theorem IsComplete_outer_next_iff (g : Grid) :
    forLoop (fun r => forLoop (IsComplete.body g r) 9 0) 9 0 = .next ↔
      ∀ r c : Fin 9, g.size r c ≠ 0 := by
  rw [forLoop_next_iff]
  constructor
  · intro h r
    exact (IsComplete_inner_next_iff g r).1 (h r.val r.isLt)
  · intro h k hk
    exact (IsComplete_inner_next_iff g ⟨k, hk⟩).2 (h ⟨k, hk⟩)

theorem IsComplete_true_iff (g : Grid) :
    IsComplete g = some true ↔ ∀ r c : Fin 9, g.size r c ≠ 0 := by
  rw [← IsComplete_outer_next_iff]
  unfold IsComplete
  rcases IsComplete_outer_cases g with h | h <;> simp [h]

theorem IsComplete_false_iff (g : Grid) :
    IsComplete g = some false ↔ ∃ r c : Fin 9, g.size r c = 0 := by
  have : (∃ r c : Fin 9, g.size r c = 0) ↔ ¬ ∀ r c : Fin 9, g.size r c ≠ 0 := by
    push_neg
    rfl
  rw [this, ← IsComplete_outer_next_iff]
  unfold IsComplete
  rcases IsComplete_outer_cases g with h | h <;> simp [h]

/-! ## `NewSudoku` -/

theorem forState_invariant {σ : Type} (body : Int → σ → Option σ) (n : Nat) :
    ∀ (I : Nat → σ → Prop) (lo : Int) (s : σ), I 0 s →
      (∀ (k : Nat) (t : σ), k < n → I k t → ∃ t', body (lo + k) t = some t' ∧ I (k + 1) t') →
      ∃ s', forState body n lo s = some s' ∧ I n s' := by
  induction n with
  | zero =>
    intro I lo s h0 _
    exact ⟨s, rfl, h0⟩
  | succ n ih =>
    intro I lo s h0 hstep
    obtain ⟨s1, hb, h1⟩ := hstep 0 s (by omega) h0
    simp only [Nat.cast_zero, add_zero] at hb
    rw [forState, hb]
    simp only
    refine ih (fun k t => I (k + 1) t) (lo + 1) s1 h1 fun k t hk hI => ?_
    obtain ⟨t', hb', hI'⟩ := hstep (k + 1) t (by omega) hI
    rw [show lo + ((k + 1 : Nat) : Int) = lo + 1 + (k : Int) by push_cast; ring] at hb'
    exact ⟨t', hb', hI'⟩

theorem NewSudoku_body_fin (digits : Cells Int) (r c : Fin 9) (grid : Grid) :
    NewSudoku.body digits ((0 : Int) + (r.val : Nat)) ((0 : Int) + (c.val : Nat)) grid =
      some { size := grid.size.set r c (digits r c),
             fixed := if digits r c ≠ 0 then grid.fixed.set r c true else grid.fixed } := by
  unfold NewSudoku.body
  rw [zero_add, zero_add, indexAt_cast]
  simp only
  rw [storeAt_cast]
  simp only
  split_ifs with h
  · rw [storeAt_cast]
  · rfl

theorem NewSudoku_filled_step (digits : Cells Int) (r c : Fin 9) (m : Nat)
    (hm : m = 9 * r.val + c.val) (t : Grid) (h : NewSudoku.Filled digits m t) :
    NewSudoku.Filled digits (m + 1)
      { size := t.size.set r c (digits r c),
        fixed := if digits r c ≠ 0 then t.fixed.set r c true else t.fixed } := by
  intro r' c'
  obtain ⟨h1, h2⟩ := h r' c'
  have hc := c.isLt
  have hc' := c'.isLt
  by_cases hcell : r' = r ∧ c' = c
  · obtain ⟨e1, e2⟩ := hcell
    subst e1 e2
    have hlt : 9 * r'.val + c'.val < m + 1 := by omega
    have hnlt : ¬ 9 * r'.val + c'.val < m := by omega
    rw [if_neg hnlt] at h2
    simp only [if_pos hlt]
    constructor
    · simp [Cells.set]
    · by_cases hd : digits r' c' = 0
      · simp [hd, h2]
      · simp [hd, Cells.set]
  · have hne : 9 * r'.val + c'.val ≠ m := by
      intro he
      apply hcell
      constructor <;> apply Fin.ext <;> omega
    have hiff : (9 * r'.val + c'.val < m + 1) ↔ (9 * r'.val + c'.val < m) := by omega
    simp only [hiff]
    constructor
    · simp only [Cells.set]
      rw [if_neg hcell, h1]
    · by_cases hd : digits r c = 0
      · simp only [hd, ne_eq, not_true_eq_false, if_false]
        exact h2
      · simp only [ne_eq, hd, not_false_eq_true, if_true, Cells.set]
        rw [if_neg hcell, h2]

theorem NewSudoku_eq (digits : Cells Int) :
    NewSudoku digits =
      some { size := digits, fixed := fun r c => decide (digits r c ≠ 0) } := by
  have hinner : ∀ (r : Nat) (grid : Grid), r < 9 → NewSudoku.Filled digits (9 * r) grid →
      ∃ grid', forState (fun c grid => NewSudoku.body digits ((0 : Int) + r) c grid) 9 0 grid =
        some grid' ∧ NewSudoku.Filled digits (9 * (r + 1)) grid' := by
    intro r grid hr hI
    refine forState_invariant (fun c grid => NewSudoku.body digits ((0 : Int) + r) c grid) 9
      (fun k grid => NewSudoku.Filled digits (9 * r + k) grid) 0 grid hI ?_
    intro k t hk hIk
    have hb := NewSudoku_body_fin digits ⟨r, hr⟩ ⟨k, hk⟩ t
    simp only at hb
    exact ⟨_, hb, NewSudoku_filled_step digits ⟨r, hr⟩ ⟨k, hk⟩ (9 * r + k) rfl t hIk⟩
  have houter := forState_invariant
    (fun r grid => forState (fun c grid => NewSudoku.body digits r c grid) 9 0 grid) 9
    (fun r grid => NewSudoku.Filled digits (9 * r) grid) 0 Grid.zero
    (fun r c => by simp [Grid.zero])
    (fun r grid hr hI => hinner r grid hr hI)
  obtain ⟨g, hg, hI⟩ := houter
  unfold NewSudoku
  rw [hg]
  congr 1
  cases g with
  | mk size fixed =>
    congr 1
    · funext r c
      have := (hI r c).1
      simp only at this
      rw [this, if_pos (by omega)]
    · funext r c
      have := (hI r c).2
      simp only at this
      rw [this, if_pos (by omega)]

/-- The board `main` starts from. -/
theorem NewSudoku_startDigits : NewSudoku startDigits = some startGrid :=
  NewSudoku_eq startDigits

/-! ## Invariants of the reachable boards -/

theorem inBoxOf_symm {r c r' c' : Fin 9} (h : InBoxOf r c r' c') : InBoxOf r' c' r c := by
  unfold InBoxOf at *
  omega

theorem inBoxOf_trans {r c r1 c1 r2 c2 : Fin 9} (h1 : InBoxOf r1 c1 r c)
    (h2 : InBoxOf r c r2 c2) : InBoxOf r1 c1 r2 c2 := by
  unfold InBoxOf at *
  omega

/-- Writing a value that no related cell holds keeps related cells free of
duplicates; `R` is "same row", "same column" or "same box". -/
theorem noDup_set_value (R : Fin 9 → Fin 9 → Fin 9 → Fin 9 → Prop)
    (hsymm : ∀ r c r' c', R r c r' c' → R r' c' r c) (a : Cells Int) (r c : Fin 9) (v : Int)
    (ha : ∀ r1 c1 r2 c2 : Fin 9, R r1 c1 r2 c2 → a r1 c1 ≠ 0 → a r1 c1 = a r2 c2 →
      r1 = r2 ∧ c1 = c2)
    (hfree : ∀ r' c' : Fin 9, R r c r' c' → a r' c' ≠ v) :
    ∀ r1 c1 r2 c2 : Fin 9, R r1 c1 r2 c2 → a.set r c v r1 c1 ≠ 0 →
      a.set r c v r1 c1 = a.set r c v r2 c2 → r1 = r2 ∧ c1 = c2 := by
  intro r1 c1 r2 c2 hR hne heq
  simp only [Cells.set] at hne heq
  by_cases h1 : r1 = r ∧ c1 = c <;> by_cases h2 : r2 = r ∧ c2 = c
  · exact ⟨h1.1.trans h2.1.symm, h1.2.trans h2.2.symm⟩
  · rw [if_pos h1, if_neg h2] at heq
    obtain ⟨e1, e2⟩ := h1
    subst e1 e2
    exact absurd heq.symm (hfree r2 c2 hR)
  · rw [if_neg h1, if_pos h2] at heq
    obtain ⟨e1, e2⟩ := h2
    subst e1 e2
    exact absurd heq (hfree r1 c1 (hsymm _ _ _ _ hR))
  · rw [if_neg h1] at hne
    rw [if_neg h1, if_neg h2] at heq
    exact ha r1 c1 r2 c2 hR hne heq

/-- Emptying a cell keeps related cells free of duplicates. -/
theorem noDup_set_zero (R : Fin 9 → Fin 9 → Fin 9 → Fin 9 → Prop) (a : Cells Int) (r c : Fin 9)
    (ha : ∀ r1 c1 r2 c2 : Fin 9, R r1 c1 r2 c2 → a r1 c1 ≠ 0 → a r1 c1 = a r2 c2 →
      r1 = r2 ∧ c1 = c2) :
    ∀ r1 c1 r2 c2 : Fin 9, R r1 c1 r2 c2 → a.set r c 0 r1 c1 ≠ 0 →
      a.set r c 0 r1 c1 = a.set r c 0 r2 c2 → r1 = r2 ∧ c1 = c2 := by
  intro r1 c1 r2 c2 hR hne heq
  simp only [Cells.set] at hne heq
  by_cases h1 : r1 = r ∧ c1 = c
  · rw [if_pos h1] at hne
    exact absurd rfl hne
  · rw [if_neg h1] at hne heq
    by_cases h2 : r2 = r ∧ c2 = c
    · rw [if_pos h2] at heq
      exact absurd heq hne
    · rw [if_neg h2] at heq
      exact ha r1 c1 r2 c2 hR hne heq

theorem noDupRows_iff (a : Cells Int) :
    NoDupRows a ↔ ∀ r1 c1 r2 c2 : Fin 9, r1 = r2 → a r1 c1 ≠ 0 → a r1 c1 = a r2 c2 →
      r1 = r2 ∧ c1 = c2 := by
  constructor
  · intro h r1 c1 r2 c2 hr hne heq
    subst hr
    exact ⟨rfl, h r1 c1 c2 hne heq⟩
  · intro h r c c' hne heq
    exact (h r c r c' rfl hne heq).2

theorem noDupColumns_iff (a : Cells Int) :
    NoDupColumns a ↔ ∀ r1 c1 r2 c2 : Fin 9, c1 = c2 → a r1 c1 ≠ 0 → a r1 c1 = a r2 c2 →
      r1 = r2 ∧ c1 = c2 := by
  constructor
  · intro h r1 c1 r2 c2 hc hne heq
    subst hc
    exact ⟨h r1 r2 c1 hne heq, rfl⟩
  · intro h r r' c hne heq
    exact (h r c r' c rfl hne heq).1

theorem noDuplicates_set_value (g : Grid) (r c : Fin 9) (v : Int)
    (ha : NoDuplicates g.size) (hrow : ¬ g.OccursInRow v r) (hcol : ¬ g.OccursInColumn v c)
    (hbox : ¬ g.OccursInBox v r c) : NoDuplicates (g.size.set r c v) := by
  obtain ⟨h1, h2, h3⟩ := ha
  refine ⟨?_, ?_, ?_⟩
  · rw [noDupRows_iff] at h1 ⊢
    refine noDup_set_value (fun r1 _ r2 _ => r1 = r2) (fun _ _ _ _ h => h.symm) _ r c v h1 ?_
    intro r' c' hr hv
    subst hr
    exact hrow ⟨c', hv⟩
  · rw [noDupColumns_iff] at h2 ⊢
    refine noDup_set_value (fun _ c1 _ c2 => c1 = c2) (fun _ _ _ _ h => h.symm) _ r c v h2 ?_
    intro r' c' hc hv
    subst hc
    exact hcol ⟨r', hv⟩
  · exact noDup_set_value InBoxOf (fun _ _ _ _ h => inBoxOf_symm h) _ r c v h3
      (fun r' c' hb hv => hbox ⟨r', c', hb, hv⟩)

theorem noDuplicates_set_zero (a : Cells Int) (r c : Fin 9) (ha : NoDuplicates a) :
    NoDuplicates (a.set r c 0) := by
  obtain ⟨h1, h2, h3⟩ := ha
  refine ⟨?_, ?_, ?_⟩
  · rw [noDupRows_iff] at h1 ⊢
    exact noDup_set_zero (fun r1 _ r2 _ => r1 = r2) _ r c h1
  · rw [noDupColumns_iff] at h2 ⊢
    exact noDup_set_zero (fun _ c1 _ c2 => c1 = c2) _ r c h2
  · exact noDup_set_zero InBoxOf _ r c h3

/-- Every call of `WriteNumber` that does not panic either leaves the board as
it was or writes a value of `1..9`, which no cell of the row, the column and
the box holds, into a cell that is not fixed. -/
theorem WriteNumber_cases (g g' : Grid) (v row column : Int) (err : Option SudokuError)
    (h : WriteNumber g v row column = some (g', err)) :
    g' = g ∨ ∃ r c : Fin 9, g.fixed r c = false ∧ (1 ≤ v ∧ v ≤ 9) ∧
      ¬ g.OccursInRow v r ∧ ¬ g.OccursInColumn v c ∧ ¬ g.OccursInBox v r c ∧
      g' = { g with size := g.size.set r c v } := by
  cases err with
  | some e => exact Or.inl (WriteNumber_error_eq g g' v row column e h)
  | none =>
    obtain ⟨r, c, -, -, hv, hvn, hg⟩ := WriteNumber_success_inv g g' v row column h
    have hf : g.fixed r c = false := by
      cases hfx : g.fixed r c with
      | false => rfl
      | true =>
        rw [ValidNumberPosition_of_fixed g v r c hfx] at hvn
        simp at hvn
    obtain ⟨h1, h2, h3⟩ := (ValidNumberPosition_nil_iff g v r c hf).1 hvn
    exact Or.inr ⟨r, c, hf, hv, h1, h2, h3, hg⟩

theorem noDuplicates_of_reachable (digits : Cells Int) (hseed : NoDuplicates digits) (g : Grid)
    (h : Reachable digits g) : NoDuplicates g.size := by
  induction h with
  | init g hg =>
    rw [NewSudoku_eq] at hg
    simp only [Option.some.injEq] at hg
    rw [← hg]
    exact hseed
  | write g g' v row column err _ hw ih =>
    rcases WriteNumber_cases g g' v row column err hw with h | ⟨r, c, -, -, h1, h2, h3, hg⟩
    · rw [h]; exact ih
    · rw [hg]
      exact noDuplicates_set_value g r c v ih h1 h2 h3
  | clear g row col _ _ ih => exact noDuplicates_set_zero g.size row col ih

theorem digitsInRange_of_reachable (digits : Cells Int) (hseed : DigitsInRange digits) (g : Grid)
    (h : Reachable digits g) : DigitsInRange g.size := by
  induction h with
  | init g hg =>
    rw [NewSudoku_eq] at hg
    simp only [Option.some.injEq] at hg
    rw [← hg]
    exact hseed
  | write g g' v row column err _ hw ih =>
    rcases WriteNumber_cases g g' v row column err hw with h | ⟨r, c, -, hv, -, -, -, hg⟩
    · rw [h]; exact ih
    · rw [hg]
      intro r' c'
      simp only [Cells.set]
      split_ifs
      · omega
      · exact ih r' c'
  | clear g row col _ _ ih =>
    intro r' c'
    simp only [clearAction, Cells.set]
    split_ifs
    · omega
    · exact ih r' c'

/-- The fixed flags of a reachable board are those set by `NewSudoku`, and the
cells they flag hold the starting digits. -/
theorem fixed_inv_of_reachable (digits : Cells Int) (g : Grid) (h : Reachable digits g) :
    (∀ r c : Fin 9, g.fixed r c = decide (digits r c ≠ 0)) ∧
      (∀ r c : Fin 9, g.fixed r c = true → g.size r c = digits r c) := by
  induction h with
  | init g hg =>
    rw [NewSudoku_eq] at hg
    simp only [Option.some.injEq] at hg
    rw [← hg]
    exact ⟨fun _ _ => rfl, fun _ _ _ => rfl⟩
  | write g g' v row column err _ hw ih =>
    rcases WriteNumber_cases g g' v row column err hw with h | ⟨r, c, hf, -, -, -, -, hg⟩
    · rw [h]; exact ih
    · rw [hg]
      refine ⟨ih.1, fun r' c' hfx => ?_⟩
      simp only [Cells.set]
      split_ifs with hcell
      · obtain ⟨e1, e2⟩ := hcell
        subst e1 e2
        simp only at hfx
        rw [hf] at hfx
        cases hfx
      · exact ih.2 r' c' hfx
  | clear g row col _ hf ih =>
    refine ⟨ih.1, fun r' c' hfx => ?_⟩
    simp only [clearAction, Cells.set]
    split_ifs with hcell
    · obtain ⟨e1, e2⟩ := hcell
      subst e1 e2
      simp only [clearAction] at hfx
      rw [hf] at hfx
      cases hfx
    · exact ih.2 r' c' hfx

/-- Nine pairwise different values of `1..9` are all of `1..9`. -/
theorem exists_of_injective (f : Fin 9 → Int) (hrange : ∀ k, 1 ≤ f k ∧ f k ≤ 9)
    (hinj : ∀ k l, f k = f l → k = l) (d : Int) (hd : 1 ≤ d ∧ d ≤ 9) : ∃ k, f k = d := by
  let f' : Fin 9 → Fin 9 := fun k => ⟨(f k - 1).toNat, by have := hrange k; omega⟩
  have hinj' : Function.Injective f' := by
    intro k l hkl
    apply hinj
    have hk := hrange k
    have hl := hrange l
    have : (f k - 1).toNat = (f l - 1).toNat := congrArg Fin.val hkl
    omega
  obtain ⟨k, hk⟩ := (Finite.injective_iff_surjective.1 hinj') ⟨(d - 1).toNat, by omega⟩
  refine ⟨k, ?_⟩
  have hk' := hrange k
  have : (f k - 1).toNat = (d - 1).toNat := congrArg Fin.val hk
  omega

/-- The nine cells of the box of `(r, c)`, row by row. -/
theorem boxCell_bound (r : Fin 9) (k : Fin 9) :
    r.val / 3 * 3 + k.val / 3 < 9 ∧ r.val / 3 * 3 + k.val % 3 < 9 := by
  have := r.isLt
  have := k.isLt
  omega

theorem isSolution_of_complete (a : Cells Int) (hrange : DigitsInRange a)
    (hnodup : NoDuplicates a) (hfull : ∀ r c : Fin 9, a r c ≠ 0) : IsSolution a := by
  obtain ⟨hrows, hcols, hboxes⟩ := hnodup
  have hpos : ∀ r c : Fin 9, 1 ≤ a r c ∧ a r c ≤ 9 := by
    intro r c
    have := hrange r c
    have := hfull r c
    omega
  intro d hd
  refine ⟨fun r => ?_, fun c => ?_, fun r c => ?_⟩
  · obtain ⟨c, hc⟩ := exists_of_injective (fun c => a r c) (fun c => hpos r c)
      (fun c c' h => hrows r c c' (hfull r c) h) d hd
    exact ⟨c, hc, fun c' hc' => (hrows r c c' (hfull r c) (hc.trans hc'.symm)).symm⟩
  · obtain ⟨r, hr⟩ := exists_of_injective (fun r => a r c) (fun r => hpos r c)
      (fun r r' h => hcols r r' c (hfull r c) h) d hd
    exact ⟨r, hr, fun r' hr' => (hcols r r' c (hfull r c) (hr.trans hr'.symm)).symm⟩
  · have hr := r.isLt
    have hc := c.isLt
    have hin : ∀ k : Fin 9, InBoxOf r c ⟨r.val / 3 * 3 + k.val / 3, (boxCell_bound r k).1⟩
        ⟨c.val / 3 * 3 + k.val % 3, (boxCell_bound c k).2⟩ := by
      intro k
      have := k.isLt
      unfold InBoxOf
      simp only
      omega
    obtain ⟨k, hk⟩ := exists_of_injective
      (fun k => a ⟨r.val / 3 * 3 + k.val / 3, (boxCell_bound r k).1⟩
        ⟨c.val / 3 * 3 + k.val % 3, (boxCell_bound c k).2⟩)
      (fun k => hpos _ _)
      (fun k l h => by
        have h1 := hboxes _ _ _ _ (inBoxOf_trans (inBoxOf_symm (hin k)) (hin l)) (hfull _ _) h
        have e1 := congrArg Fin.val h1.1
        have e2 := congrArg Fin.val h1.2
        simp only at e1 e2
        apply Fin.ext
        omega) d hd
    refine ⟨(⟨r.val / 3 * 3 + k.val / 3, (boxCell_bound r k).1⟩,
      ⟨c.val / 3 * 3 + k.val % 3, (boxCell_bound c k).2⟩), ⟨hin k, hk⟩, ?_⟩
    rintro ⟨i, j⟩ ⟨hb, hv⟩
    simp only at hb hv
    have := hboxes _ _ i j (inBoxOf_trans (inBoxOf_symm (hin k)) hb) (hfull _ _) (hk.trans hv.symm)
    exact Prod.ext this.1.symm this.2.symm

/-! ## Placement -/

/-- C1: on a cell in range that is not fixed and is empty, `WriteNumber` with a
value in `1..9` returns the `nil` error if and only if the value occurs nowhere
in the row of the cell, nowhere in its column and nowhere in the 3x3 box with
top-left corner `((row/3)*3, (column/3)*3)`. -/
theorem WriteNumber_succeeds_iff (g : Grid) (row column : Fin 9) (value : Int)
    (hfixed : g.fixed row column = false) (_hempty : g.size row column = 0)
    (hvalue : 1 ≤ value ∧ value ≤ 9) :
    (∃ g', WriteNumber g value row.val column.val = some (g', none)) ↔
      ¬ g.OccursInRow value row ∧ ¬ g.OccursInColumn value column ∧
        ¬ g.OccursInBox value row column := by
  rw [← ValidNumberPosition_nil_iff g value row column hfixed]
  constructor
  · rintro ⟨g', h⟩
    obtain ⟨r, c, hr, hc, -, hvn, -⟩ := WriteNumber_success_inv g g' value _ _ h
    rw [hr, hc]
    exact hvn
  · intro h
    exact ⟨_, WriteNumber_of_nil g value row column hvalue h⟩

theorem WriteNumber_succeeds_iff_witness :
    startGrid.fixed 0 2 = false ∧ startGrid.size 0 2 = 0 ∧
      ((∃ g', WriteNumber startGrid 4 ((0 : Fin 9).val : Int) ((2 : Fin 9).val : Int) =
          some (g', none)) ↔
        ¬ startGrid.OccursInRow 4 0 ∧ ¬ startGrid.OccursInColumn 4 2 ∧
          ¬ startGrid.OccursInBox 4 0 2) :=
  ⟨by decide, by decide,
    WriteNumber_succeeds_iff startGrid 0 2 4 (by decide) (by decide) (by decide)⟩

/-- C2, as stated, fails: on the fixed cell `(0, 0)` of the starting board
`WriteNumber` with the value `0` returns the range error, not the fixed-cell
error. -/
theorem WriteNumber_fixed_counterexample :
    startGrid.fixed 0 0 = true ∧
      WriteNumber startGrid 0 0 0 = some (startGrid, some .range) ∧
      SudokuError.range ≠ SudokuError.fixedCell :=
  ⟨by decide, WriteNumber_of_range startGrid 0 0 0 (by decide), by decide⟩

/-- C2, amended: on a fixed cell in range `WriteNumber` returns the fixed-cell
error for every value in `1..9` (the value the cell holds included) and the
range error for every other value; the board is left as it was. -/
theorem WriteNumber_fixed (g : Grid) (row column : Fin 9) (value : Int)
    (hfixed : g.fixed row column = true) :
    (1 ≤ value ∧ value ≤ 9 →
        WriteNumber g value row.val column.val = some (g, some .fixedCell)) ∧
      (value < 1 ∨ value > 9 →
        WriteNumber g value row.val column.val = some (g, some .range)) :=
  ⟨fun hv => WriteNumber_of_error g value _ _ hv _
      (ValidNumberPosition_of_fixed g value row column hfixed),
    fun hv => WriteNumber_of_range g value _ _ hv⟩

theorem WriteNumber_fixed_witness :
    startGrid.fixed 0 0 = true ∧
      ((1 ≤ (5 : Int) ∧ (5 : Int) ≤ 9 →
          WriteNumber startGrid 5 ((0 : Fin 9).val : Int) ((0 : Fin 9).val : Int) =
            some (startGrid, some .fixedCell)) ∧
        ((5 : Int) < 1 ∨ (5 : Int) > 9 →
          WriteNumber startGrid 5 ((0 : Fin 9).val : Int) ((0 : Fin 9).val : Int) =
            some (startGrid, some .range))) :=
  ⟨by decide, WriteNumber_fixed startGrid 0 0 5 (by decide)⟩

/-- C3: for every board, every cell (fixed or not, empty or not) and every
value outside `1..9`, `WriteNumber` returns the range error. The check comes
before any use of the coordinates, so they need not even be in range. -/
theorem WriteNumber_range (g : Grid) (value row column : Int)
    (hvalue : value < 1 ∨ value > 9) :
    WriteNumber g value row column = some (g, some .range) :=
  WriteNumber_of_range g value row column hvalue

theorem WriteNumber_range_witness :
    ((10 : Int) < 1 ∨ (10 : Int) > 9) ∧
      WriteNumber startGrid 10 0 2 = some (startGrid, some .range) :=
  ⟨by decide, WriteNumber_range startGrid 10 0 2 (by decide)⟩

/-- C4: if `WriteNumber` returns the `nil` error on a cell in range, then
afterwards that cell holds the value, every other cell holds what it held
before, and every fixed flag is as before. -/
theorem WriteNumber_success_frame (g g' : Grid) (value : Int) (row column : Fin 9)
    (h : WriteNumber g value row.val column.val = some (g', none)) :
    g'.size row column = value ∧
      (∀ r c : Fin 9, ¬ (r = row ∧ c = column) → g'.size r c = g.size r c) ∧
      (∀ r c : Fin 9, g'.fixed r c = g.fixed r c) := by
  obtain ⟨r, c, hr, hc, -, -, hg⟩ := WriteNumber_success_inv g g' value _ _ h
  have hr' : row = r := Fin.ext (by exact_mod_cast hr)
  have hc' : column = c := Fin.ext (by exact_mod_cast hc)
  subst hr' hc' hg
  refine ⟨by simp [Cells.set], fun r c hne => ?_, fun r c => rfl⟩
  simp only [Cells.set]
  rw [if_neg hne]

theorem WriteNumber_success_frame_witness :
    WriteNumber startGrid 4 ((0 : Fin 9).val : Int) ((2 : Fin 9).val : Int) =
        some ({ startGrid with size := startGrid.size.set 0 2 4 }, none) ∧
      (({ startGrid with size := startGrid.size.set 0 2 4 } : Grid).size 0 2 = 4 ∧
        (∀ r c : Fin 9, ¬ (r = 0 ∧ c = 2) →
          ({ startGrid with size := startGrid.size.set 0 2 4 } : Grid).size r c =
            startGrid.size r c) ∧
        (∀ r c : Fin 9,
          ({ startGrid with size := startGrid.size.set 0 2 4 } : Grid).fixed r c =
            startGrid.fixed r c)) :=
  ⟨WriteNumber_of_nil startGrid 4 0 2 (by decide) (by decide),
    WriteNumber_success_frame startGrid _ 4 0 2
      (WriteNumber_of_nil startGrid 4 0 2 (by decide) (by decide))⟩

/-- C5: if `WriteNumber` returns an error (range, fixed cell, row, column or
box conflict), the board after the call, all cell values and all fixed flags,
is the board before it. -/
theorem WriteNumber_error_frame (g g' : Grid) (value row column : Int) (e : SudokuError)
    (h : WriteNumber g value row column = some (g', some e)) :
    g' = g ∧ (∀ r c : Fin 9, g'.size r c = g.size r c) ∧
      (∀ r c : Fin 9, g'.fixed r c = g.fixed r c) := by
  have := WriteNumber_error_eq g g' value row column e h
  subst this
  exact ⟨rfl, fun _ _ => rfl, fun _ _ => rfl⟩

theorem WriteNumber_error_frame_witness :
    WriteNumber startGrid 5 0 2 = some (startGrid, some .rowConflict) ∧
      (startGrid = startGrid ∧ (∀ r c : Fin 9, startGrid.size r c = startGrid.size r c) ∧
        (∀ r c : Fin 9, startGrid.fixed r c = startGrid.fixed r c)) :=
  ⟨WriteNumber_of_error startGrid 5 0 2 (by decide) _ (by decide),
    WriteNumber_error_frame startGrid startGrid 5 0 2 .rowConflict
      (WriteNumber_of_error startGrid 5 0 2 (by decide) _ (by decide))⟩

/-- C7, as stated, fails: on the starting board the cell `(1, 1)` is not fixed
and the value `9` occurs in row `1` (at column `4`), yet `ValidNumberPosition`
reports the column conflict, because `9` occurs in column `1` at row `2` and
the loop reaches index `2` of the column before index `4` of the row. -/
theorem ValidNumberPosition_order_counterexample :
    startGrid.fixed 1 1 = false ∧ startGrid.size 1 4 = 9 ∧ startGrid.size 2 1 = 9 ∧
      ValidNumberPosition startGrid 9 1 1 = some (some .columnConflict) ∧
      SudokuError.columnConflict ≠ SudokuError.rowConflict :=
  ⟨by decide, by decide, by decide, by decide, by decide⟩

/-- C7, amended: on a cell in range that is not fixed, `ValidNumberPosition`
scans the row and the column together, for `i = 0..8` testing `values[row][i]`
and then `values[i][column]`, and tests the box last. It reports the row
conflict exactly when the value is at some `values[row][i]` and at no
`values[j][column]` with `j < i`; the column conflict exactly when the value is
at some `values[i][column]` and at no `values[row][j]` with `j ≤ i`; the box
conflict exactly when the value is in neither the row nor the column and is in
the 3x3 box of the cell. -/
theorem ValidNumberPosition_order (g : Grid) (value : Int) (row column : Fin 9)
    (hfixed : g.fixed row column = false) :
    (ValidNumberPosition g value row.val column.val = some (some .rowConflict) ↔
        ∃ i : Fin 9, g.size row i = value ∧ ∀ j : Fin 9, j < i → g.size j column ≠ value) ∧
      (ValidNumberPosition g value row.val column.val = some (some .columnConflict) ↔
        ∃ i : Fin 9, g.size i column = value ∧ ∀ j : Fin 9, j ≤ i → g.size row j ≠ value) ∧
      (ValidNumberPosition g value row.val column.val = some (some .boxConflict) ↔
        ¬ g.OccursInRow value row ∧ ¬ g.OccursInColumn value column ∧
          g.OccursInBox value row column) := by
  refine ⟨?_, ?_, ValidNumberPosition_box_iff g value row column hfixed⟩
  · rw [ValidNumberPosition_row_iff g value row column hfixed]
    constructor
    · rintro ⟨i, hi, hlt⟩
      exact ⟨i, hi, fun j hj => (hlt j hj).2⟩
    · rintro ⟨i, hi, hlt⟩
      obtain ⟨i0, hle, h0, hmin⟩ := exists_least (fun k => g.size row k = value) i.val i rfl hi
      exact ⟨i0, h0, fun j hj => ⟨hmin j hj, hlt j (lt_of_lt_of_le hj hle)⟩⟩
  · rw [ValidNumberPosition_column_iff g value row column hfixed]
    constructor
    · rintro ⟨i, hi, hri, hlt⟩
      refine ⟨i, hi, fun j hj => ?_⟩
      rcases lt_or_eq_of_le hj with h | h
      · exact (hlt j h).1
      · rw [h]; exact hri
    · rintro ⟨i, hi, hle⟩
      obtain ⟨i0, hle0, h0, hmin⟩ :=
        exists_least (fun k => g.size k column = value) i.val i rfl hi
      exact ⟨i0, h0, hle i0 hle0,
        fun j hj => ⟨hle j (le_trans (le_of_lt hj) hle0), hmin j hj⟩⟩

theorem ValidNumberPosition_order_witness :
    startGrid.fixed 1 1 = false ∧
      ((ValidNumberPosition startGrid 9 ((1 : Fin 9).val : Int) ((1 : Fin 9).val : Int) =
          some (some .rowConflict) ↔
          ∃ i : Fin 9, startGrid.size 1 i = 9 ∧
            ∀ j : Fin 9, j < i → startGrid.size j 1 ≠ 9) ∧
        (ValidNumberPosition startGrid 9 ((1 : Fin 9).val : Int) ((1 : Fin 9).val : Int) =
          some (some .columnConflict) ↔
          ∃ i : Fin 9, startGrid.size i 1 = 9 ∧
            ∀ j : Fin 9, j ≤ i → startGrid.size 1 j ≠ 9) ∧
        (ValidNumberPosition startGrid 9 ((1 : Fin 9).val : Int) ((1 : Fin 9).val : Int) =
          some (some .boxConflict) ↔
          ¬ startGrid.OccursInRow 9 1 ∧ ¬ startGrid.OccursInColumn 9 1 ∧
            startGrid.OccursInBox 9 1 1)) :=
  ⟨by decide, ValidNumberPosition_order startGrid 9 1 1 (by decide)⟩

/-! ## Completion -/

/-- C6: for every board, whether or not its rows, columns or boxes contain
duplicates, `IsComplete` returns `true` exactly when all 81 cells hold a
non-zero value, and `false` exactly when at least one cell holds `0`; it never
panics. -/
theorem IsComplete_iff (g : Grid) :
    (IsComplete g = some true ↔ ∀ r c : Fin 9, g.size r c ≠ 0) ∧
      (IsComplete g = some false ↔ ∃ r c : Fin 9, g.size r c = 0) :=
  ⟨IsComplete_true_iff g, IsComplete_false_iff g⟩

/-! ## Invariants -/

theorem startDigits_digitsInRange : DigitsInRange startDigits := by decide

theorem startDigits_noDuplicates : NoDuplicates startDigits := by decide

theorem almostSolved_digitsInRange : DigitsInRange almostSolved := by decide

theorem almostSolved_noDuplicates : NoDuplicates almostSolved := by decide

theorem startGridPlaced_reachable : Reachable startDigits startGridPlaced :=
  Reachable.write startGrid startGridPlaced 4 ((0 : Fin 9).val : Int) ((2 : Fin 9).val : Int)
    none (Reachable.init startGrid NewSudoku_startDigits)
    (WriteNumber_of_nil startGrid 4 0 2 (by decide) (by decide))

theorem solvedGrid_reachable : Reachable almostSolved solvedGrid :=
  Reachable.write almostSolvedGrid solvedGrid 4 ((0 : Fin 9).val : Int)
    ((2 : Fin 9).val : Int) none
    (Reachable.init almostSolvedGrid (NewSudoku_eq almostSolved))
    (WriteNumber_of_nil almostSolvedGrid 4 0 2 (by decide) (by decide))

/-- C8: if the seed has entries in `0..9` and no non-zero value twice in any
row, column or 3x3 box, then every board reachable from `NewSudoku(seed)` by
calls of `WriteNumber` (with any value on any cell, whatever they return) and
clear actions on cells that are not fixed has no non-zero value twice in any
row, column or 3x3 box. -/
theorem reachable_noDuplicates (seed : Cells Int) (_hrange : DigitsInRange seed)
    (hnodup : NoDuplicates seed) (g : Grid) (hreach : Reachable seed g) :
    NoDuplicates g.size :=
  noDuplicates_of_reachable seed hnodup g hreach

theorem reachable_noDuplicates_witness :
    DigitsInRange startDigits ∧ NoDuplicates startDigits ∧
      Reachable startDigits (clearAction startGridPlaced 0 3) ∧
      NoDuplicates (clearAction startGridPlaced 0 3).size :=
  ⟨startDigits_digitsInRange, startDigits_noDuplicates,
    Reachable.clear startGridPlaced 0 3 startGridPlaced_reachable (by decide),
    reachable_noDuplicates startDigits startDigits_digitsInRange startDigits_noDuplicates
      (clearAction startGridPlaced 0 3)
      (Reachable.clear startGridPlaced 0 3 startGridPlaced_reachable (by decide))⟩

/-- C9: if the seed has entries in `0..9` and no non-zero value twice in any
row, column or 3x3 box, then every board reachable from `NewSudoku(seed)` by
calls of `WriteNumber` and clear actions on cells that are not fixed, on which
`IsComplete` returns `true`, is a valid Sudoku solution: every row, every
column and every 3x3 box contains each of the digits `1..9` exactly once. -/
theorem reachable_complete_isSolution (seed : Cells Int) (hrange : DigitsInRange seed)
    (hnodup : NoDuplicates seed) (g : Grid) (hreach : Reachable seed g)
    (hcomplete : IsComplete g = some true) : IsSolution g.size :=
  isSolution_of_complete g.size (digitsInRange_of_reachable seed hrange g hreach)
    (noDuplicates_of_reachable seed hnodup g hreach) ((IsComplete_true_iff g).1 hcomplete)

theorem reachable_complete_isSolution_witness :
    DigitsInRange almostSolved ∧ NoDuplicates almostSolved ∧
      Reachable almostSolved solvedGrid ∧ IsComplete solvedGrid = some true ∧
      IsSolution solvedGrid.size :=
  ⟨almostSolved_digitsInRange, almostSolved_noDuplicates, solvedGrid_reachable, by decide,
    reachable_complete_isSolution almostSolved almostSolved_digitsInRange
      almostSolved_noDuplicates solvedGrid solvedGrid_reachable (by decide)⟩

/-- C10: for every seed, `NewSudoku(seed)` copies the seed into the cell values
and marks a cell fixed exactly when its seed value is non-zero, and after any
finite sequence of calls of `WriteNumber` (with any value and any coordinates,
whatever they return) and of clear operations, every fixed cell still holds its
seed value and every fixed flag is unchanged. The clear operations of the
program are the steps `Reachable.clear`: the assignment `g.size[row][col] = 0`
exists only as the callback of a cell that is not fixed, so no clear operation
ever writes to a fixed cell. -/
theorem reachable_fixed_immutable (seed : Cells Int) (g : Grid) (hreach : Reachable seed g) :
    ∃ g0 : Grid, NewSudoku seed = some g0 ∧
      (∀ r c : Fin 9, g0.size r c = seed r c) ∧
      (∀ r c : Fin 9, g0.fixed r c = true ↔ seed r c ≠ 0) ∧
      (∀ r c : Fin 9, g.fixed r c = g0.fixed r c) ∧
      (∀ r c : Fin 9, g0.fixed r c = true → g.size r c = seed r c) := by
  refine ⟨_, NewSudoku_eq seed, fun _ _ => rfl, fun r c => by simp, ?_, ?_⟩
  · exact (fixed_inv_of_reachable seed g hreach).1
  · intro r c hfx
    refine (fixed_inv_of_reachable seed g hreach).2 r c ?_
    rw [(fixed_inv_of_reachable seed g hreach).1 r c]
    exact hfx

theorem reachable_fixed_immutable_witness :
    Reachable startDigits (clearAction startGridPlaced 0 2) ∧
      ∃ g0 : Grid, NewSudoku startDigits = some g0 ∧
        (∀ r c : Fin 9, g0.size r c = startDigits r c) ∧
        (∀ r c : Fin 9, g0.fixed r c = true ↔ startDigits r c ≠ 0) ∧
        (∀ r c : Fin 9, (clearAction startGridPlaced 0 2).fixed r c = g0.fixed r c) ∧
        (∀ r c : Fin 9, g0.fixed r c = true →
          (clearAction startGridPlaced 0 2).size r c = startDigits r c) :=
  ⟨Reachable.clear startGridPlaced 0 2 startGridPlaced_reachable (by decide),
    reachable_fixed_immutable startDigits (clearAction startGridPlaced 0 2)
      (Reachable.clear startGridPlaced 0 2 startGridPlaced_reachable (by decide))⟩
end Sudoku
